import Mathlib

/-!
Shallow embedding of the `Cache` component of
`src/exercise2_3_reusable_components.py` (class `CacheEntry`, enum
`EvictionPolicy`, class `Cache`), together with proofs settling the
specification claims about it.

Modelling conventions:
* `datetime.now()` is modelled by an explicit integer timestamp `now`
  passed to each operation; all `now()` calls inside one operation
  return that same timestamp.
* Python values (`Any`) are modelled by the small inductive `PyVal`,
  whose constructor `PyVal.none` plays the role of Python `None`.
* The insertion-ordered Python `dict` is modelled by an association
  list `List (String × CacheEntry)`; its operations (`dictGet`,
  `dictSet`, `dictDel`, membership) act on the first occurrence of a
  key, matching dict semantics on the duplicate-free lists the cache
  actually produces.
* `raise KeyError(key)` is modelled by `Except String`.
* The `threading.RLock` and the logger calls have no observable effect
  on the sequential semantics and are omitted.
-/

/-- Python values, with `PyVal.none` standing for Python `None`. -/
inductive PyVal where
  | none : PyVal
  | int : Int → PyVal
  | str : String → PyVal
  deriving DecidableEq, Repr

/-- `class EvictionPolicy(Enum)`: LRU, LFU, FIFO, TTL. -/
inductive EvictionPolicy where
  | LRU | LFU | FIFO | TTL
  deriving DecidableEq, Repr

/-- `@dataclass class CacheEntry`: key, value, created, last_accessed,
access_count, expires. Timestamps are integers, `expires` is optional. -/
structure CacheEntry where
  key : String
  value : PyVal
  created : Int
  last_accessed : Int
  access_count : Nat
  expires : Option Int
  deriving DecidableEq, Repr

/-- `CacheEntry.is_expired`: true iff `expires` is set and `now > expires`. -/
def CacheEntry.is_expired (e : CacheEntry) (now : Int) : Bool :=
  match e.expires with
  | some t => now > t
  | none => false

/-- `CacheEntry.access()`: set `last_accessed` to now, bump `access_count`. -/
def CacheEntry.access (e : CacheEntry) (now : Int) : CacheEntry :=
  { e with last_accessed := now, access_count := e.access_count + 1 }

/-- The `_stats` dictionary of the cache. -/
structure Stats where
  hits : Nat
  misses : Nat
  sets : Nat
  evictions : Nat
  expirations : Nat
  deriving DecidableEq, Repr

/-- `Cache` state: configuration fields plus `_entries` and `_stats`. -/
structure Cache where
  name : String
  max_size : Int
  policy : EvictionPolicy
  default_ttl : Option Int
  entries : List (String × CacheEntry)
  stats : Stats
  deriving DecidableEq, Repr

/-- Association-list lookup, first occurrence: `d[k]` / `k in d`. -/
def dictGet (d : List (String × CacheEntry)) (k : String) : Option CacheEntry :=
  match d with
  | [] => Option.none
  | p :: rest => if p.1 = k then some p.2 else dictGet rest k

/-- Membership test `k in d`. -/
def dictMem (d : List (String × CacheEntry)) (k : String) : Bool :=
  (dictGet d k).isSome

/-- In-place update of the first occurrence of `k` (the key is known to
be present when the cache uses this). -/
def dictSet (d : List (String × CacheEntry)) (k : String) (e : CacheEntry) :
    List (String × CacheEntry) :=
  match d with
  | [] => []
  | p :: rest => if p.1 = k then (k, e) :: rest else p :: dictSet rest k e

/-- `del d[k]`: remove the first occurrence of `k`. -/
def dictDel (d : List (String × CacheEntry)) (k : String) :
    List (String × CacheEntry) :=
  match d with
  | [] => []
  | p :: rest => if p.1 = k then rest else p :: dictDel rest k

/-- Python truthiness of an optional integer (`None` and `0` are falsy). -/
def truthy : Option Int → Bool
  | some n => n ≠ 0
  | Option.none => false

/-- Python `a or b` on optional integers: `b` when `a` is falsy. -/
def pyOr (a b : Option Int) : Option Int :=
  if truthy a then a else b

/-- `Cache.__init__(name, max_size, policy, default_ttl)`: stores the
configuration as given (the source performs no validation) and starts
with empty `_entries` and zeroed `_stats`. -/
def Cache.init (name : String) (max_size : Int) (policy : EvictionPolicy)
    (default_ttl : Option Int) : Cache :=
  { name := name
    max_size := max_size
    policy := policy
    default_ttl := default_ttl
    entries := []
    stats := ⟨0, 0, 0, 0, 0⟩ }

/-- Python `min(keys, key=f)` over dict iteration order: fold keeping the
current best, replacing it only on a strictly smaller comparator value,
so the first minimal element wins. -/
def bestPair (f : CacheEntry → Int) :
    (String × CacheEntry) → List (String × CacheEntry) → (String × CacheEntry)
  | p, [] => p
  | p, q :: rest => bestPair f (if f q.2 < f p.2 then q else p) rest

/-- The comparator `_evict` uses for each policy; the source's `else`
branch makes `TTL` fall back to the LRU rule. -/
def policyKeyFn (p : EvictionPolicy) : CacheEntry → Int :=
  match p with
  | .LRU => fun e => e.last_accessed
  | .LFU => fun e => (e.access_count : Int)
  | .FIFO => fun e => e.created
  | .TTL => fun e => e.last_accessed

/-- `Cache._evict()`: no-op on an empty cache; otherwise remove the
entry minimising the policy comparator and bump `stats.evictions`. -/
def Cache.evict (c : Cache) : Cache :=
  match c.entries with
  | [] => c
  | p :: rest =>
    let victim := bestPair (policyKeyFn c.policy) p rest
    { c with entries := dictDel c.entries victim.1
             stats := { c.stats with evictions := c.stats.evictions + 1 } }

/-- The expiration computed by `Cache.set`: `ttl_seconds = ttl or
default_ttl` (Python truthiness, so `ttl=0` falls back to the default),
and `expires = now + ttl_seconds` only when `ttl_seconds` is truthy. -/
def computeExpires (default_ttl : Option Int) (now : Int) (ttl : Option Int) :
    Option Int :=
  let ttl_seconds := pyOr ttl default_ttl
  if truthy ttl_seconds then ttl_seconds.map (fun s => now + s)
  else Option.none

/-- `Cache.set(key, value, ttl)`: evict if at/over capacity and the key
is new; compute `expires` from `ttl or default_ttl` (Python truthiness,
so `ttl=0` falls back); update in place or append; bump `stats.sets`. -/
def Cache.set (c : Cache) (now : Int) (key : String) (value : PyVal)
    (ttl : Option Int) : Cache :=
  let c1 :=
    if (c.entries.length : Int) ≥ c.max_size ∧ ¬ dictMem c.entries key
    then c.evict else c
  let expires : Option Int := computeExpires c.default_ttl now ttl
  let c2 :=
    match dictGet c1.entries key with
    | some entry =>
      let entry := { entry with value := value, expires := expires }
      { c1 with entries := dictSet c1.entries key (entry.access now) }
    | Option.none =>
      let entry : CacheEntry :=
        { key := key, value := value, created := now, last_accessed := now
          access_count := 0, expires := expires }
      { c1 with entries := c1.entries ++ [(key, entry)] }
  { c2 with stats := { c2.stats with sets := c2.stats.sets + 1 } }

/-- `Cache.get(key, default)`: expired entries are deleted (counting an
expiration) and the default is returned; present entries are touched
and count a hit; absent keys count a miss. Returns the value and the
updated cache state. -/
def Cache.get (c : Cache) (now : Int) (key : String) (default : PyVal) :
    PyVal × Cache :=
  match dictGet c.entries key with
  | some entry =>
    if entry.is_expired now then
      (default,
       { c with entries := dictDel c.entries key
                stats := { c.stats with
                           expirations := c.stats.expirations + 1 } })
    else
      (entry.value,
       { c with entries := dictSet c.entries key (entry.access now)
                stats := { c.stats with hits := c.stats.hits + 1 } })
  | Option.none =>
    (default, { c with stats := { c.stats with misses := c.stats.misses + 1 } })

/-- `Cache.delete(key)`: remove the key if present, report success. -/
def Cache.delete (c : Cache) (key : String) : Bool × Cache :=
  if dictMem c.entries key then
    (true, { c with entries := dictDel c.entries key })
  else (false, c)

/-- The dictionary returned by `Cache.get_stats()`; `hit_rate` is kept
as the exact rational percentage the source computes before formatting. -/
structure StatsReport where
  hits : Nat
  misses : Nat
  sets : Nat
  evictions : Nat
  expirations : Nat
  size : Nat
  max_size : Int
  policy : EvictionPolicy
  hit_rate : Rat
  keys : List String
  deriving DecidableEq, Repr

/-- `Cache.get_stats()`: a pure read of counters, size and keys, with
`hit_rate = hits / (hits + misses) * 100` and `0` on zero requests. -/
def Cache.get_stats (c : Cache) : StatsReport :=
  let total : Nat := c.stats.hits + c.stats.misses
  { hits := c.stats.hits
    misses := c.stats.misses
    sets := c.stats.sets
    evictions := c.stats.evictions
    expirations := c.stats.expirations
    size := c.entries.length
    max_size := c.max_size
    policy := c.policy
    hit_rate := if total > 0 then (c.stats.hits : Rat) / (total : Rat) * 100 else 0
    keys := c.entries.map Prod.fst }

/-- `Cache.__contains__(key)`: `self.get(key, None) is not None`. -/
def Cache.contains (c : Cache) (now : Int) (key : String) : Bool × Cache :=
  let r := c.get now key PyVal.none
  (r.1 ≠ PyVal.none, r.2)

/-- `Cache.__getitem__(key)`: `get(key)` with default `None`, raising
`KeyError(key)` when the result is `None`. -/
def Cache.getitem (c : Cache) (now : Int) (key : String) :
    Except String PyVal × Cache :=
  let r := c.get now key PyVal.none
  (if r.1 = PyVal.none then Except.error key else Except.ok r.1, r.2)

/-- One timestamped cache operation, for sequence claims. -/
inductive Op where
  | set (now : Int) (key : String) (value : PyVal) (ttl : Option Int)
  | get (now : Int) (key : String) (default : PyVal)
  deriving DecidableEq, Repr

/-- Apply one operation (the value returned by `get` is discarded). -/
def Cache.apply (c : Cache) : Op → Cache
  | .set now key value ttl => c.set now key value ttl
  | .get now key default => (c.get now key default).2

/-- Run a sequence of operations. -/
def Cache.run (c : Cache) (ops : List Op) : Cache :=
  ops.foldl Cache.apply c

/-- Number of `get` calls in a sequence of operations. -/
def numGets : List Op → Nat
  | [] => 0
  | Op.get _ _ _ :: rest => numGets rest + 1
  | Op.set _ _ _ _ :: rest => numGets rest

/-- Arguments of one `set` call, for set-only sequence claims. -/
structure SetCall where
  now : Int
  key : String
  value : PyVal
  ttl : Option Int
  deriving DecidableEq, Repr

/-- Run a sequence of `set` calls. -/
def Cache.runSets (c : Cache) (l : List SetCall) : Cache :=
  l.foldl (fun c s => c.set s.now s.key s.value s.ttl) c

/-! ### Concrete scenarios used by counterexamples and witnesses -/

/-- A cache constructed with `max_size = 0` holding one entry `"A"`. -/
def zeroCapA : Cache :=
  (Cache.init "c" 0 EvictionPolicy.LRU Option.none).set 1 "A" (PyVal.int 1)
    Option.none

/-- One `set` with `ttl = 1` followed by one `get` after expiry. -/
def expiryOps : List Op :=
  [Op.set 0 "k" (PyVal.int 7) (some 1), Op.get 2 "k" PyVal.none]

/-- The spec's LRU scenario: `max_size = 2`, insert `A`, insert `B`,
read `A`, insert `C`. -/
def lruScenario : Cache :=
  (((((Cache.init "c" 2 EvictionPolicy.LRU Option.none).set 1 "A"
    (PyVal.int 1) Option.none).set 2 "B" (PyVal.int 2) Option.none).get 3 "A"
    PyVal.none).2).set 4 "C" (PyVal.int 3) Option.none

/-- A cache whose counters record 3 hits and 1 miss. -/
def hitMissCache : Cache :=
  { Cache.init "c" 100 EvictionPolicy.LRU Option.none with
    stats := ⟨3, 1, 4, 0, 0⟩ }

/-- A `max_size = 2` cache filled to capacity with `A` and `B`. -/
def fullAB : Cache :=
  ((Cache.init "c" 2 EvictionPolicy.LRU Option.none).set 1 "A" (PyVal.int 1)
    Option.none).set 2 "B" (PyVal.int 2) Option.none

/-- A cache holding `"k"` with `expires = 1` (expired at time 2). -/
def expiredCache : Cache :=
  (Cache.init "c" 100 EvictionPolicy.LRU Option.none).set 0 "k" (PyVal.int 7)
    (some 1)

/-- A cache storing the Python value `None` under key `"k"`. -/
def noneValueCache : Cache :=
  (Cache.init "c" 100 EvictionPolicy.LRU Option.none).set 0 "k" PyVal.none
    Option.none

/-- Three `set` calls on distinct keys, used against a capacity-2 cache. -/
def demoSets : List SetCall :=
  [⟨1, "A", PyVal.int 1, Option.none⟩, ⟨2, "B", PyVal.int 2, Option.none⟩,
   ⟨3, "C", PyVal.int 3, Option.none⟩]

/-! ### Association-list lemmas -/

theorem dictGet_dictSet_self (d : List (String × CacheEntry)) (k : String)
    (e : CacheEntry) (h : dictMem d k = true) :
    dictGet (dictSet d k e) k = some e := by
  induction d with
  | nil => simp [dictMem, dictGet] at h
  | cons p rest ih =>
    by_cases hp : p.1 = k
    · simp [dictSet, dictGet, hp]
    · simp [dictMem, dictGet, dictSet, hp] at h ⊢
      exact ih h

theorem length_dictSet (d : List (String × CacheEntry)) (k : String)
    (e : CacheEntry) : (dictSet d k e).length = d.length := by
  induction d with
  | nil => rfl
  | cons p rest ih =>
    by_cases hp : p.1 = k <;> simp [dictSet, hp, ih]

theorem dictGet_append_self (d : List (String × CacheEntry)) (k : String)
    (e : CacheEntry) (h : dictGet d k = Option.none) :
    dictGet (d ++ [(k, e)]) k = some e := by
  induction d with
  | nil => simp [dictGet]
  | cons p rest ih =>
    by_cases hp : p.1 = k
    · simp [dictGet, hp] at h
    · simp [dictGet, hp] at h ⊢
      exact ih h

theorem length_dictDel_of_mem (d : List (String × CacheEntry)) (k : String)
    (h : dictMem d k = true) : (dictDel d k).length + 1 = d.length := by
  induction d with
  | nil => simp [dictMem, dictGet] at h
  | cons p rest ih =>
    by_cases hp : p.1 = k
    · simp [dictDel, hp]
    · simp [dictMem, dictGet, hp] at h
      simp [dictDel, hp, ih h]

theorem dictGet_dictDel_of_not_mem (d : List (String × CacheEntry))
    (k k' : String) (h : dictGet d k = Option.none) :
    dictGet (dictDel d k') k = Option.none := by
  induction d with
  | nil => simp [dictDel, dictGet]
  | cons p rest ih =>
    by_cases hpk : p.1 = k
    · simp [dictGet, hpk] at h
    · simp [dictGet, hpk] at h
      by_cases hpk' : p.1 = k'
      · simp [dictDel, hpk', h]
      · simp [dictDel, dictGet, hpk', hpk, ih h]

theorem dictMem_of_mem (d : List (String × CacheEntry)) (p : String × CacheEntry)
    (h : p ∈ d) : dictMem d p.1 = true := by
  induction d with
  | nil => simp at h
  | cons q rest ih =>
    by_cases hq : q.1 = p.1
    · simp [dictMem, dictGet, hq]
    · simp [dictMem, dictGet, hq]
      rcases List.mem_cons.mp h with h1 | h1
      · exact absurd (congrArg Prod.fst h1.symm) hq
      · simpa [dictMem] using ih h1

theorem dictGet_dictDel_self (d : List (String × CacheEntry)) (k : String)
    (h : (d.map Prod.fst).Nodup) :
    dictGet (dictDel d k) k = Option.none := by
  induction d with
  | nil => simp [dictDel, dictGet]
  | cons p rest ih =>
    simp only [List.map_cons, List.nodup_cons] at h
    by_cases hp : p.1 = k
    · subst hp
      simp only [dictDel, if_pos rfl]
      rcases hrest : dictGet rest p.1 with _ | e
      · exact hrest
      · exfalso
        apply h.1
        clear ih h
        induction rest with
        | nil => simp [dictGet] at hrest
        | cons q r ihr =>
          by_cases hq : q.1 = p.1
          · simp [hq]
          · simp [dictGet, hq] at hrest
            simp [ihr hrest]
    · simp [dictDel, dictGet, hp, ih h.2]

/-! ### `bestPair` (Python `min` over dict iteration order) lemmas -/

theorem bestPair_mem (f : CacheEntry → Int) (p : String × CacheEntry)
    (rest : List (String × CacheEntry)) :
    bestPair f p rest ∈ p :: rest := by
  induction rest generalizing p with
  | nil => simp [bestPair]
  | cons q r ih =>
    simp only [bestPair]
    by_cases hq : f q.2 < f p.2
    · simp only [if_pos hq]
      have := ih q
      rcases List.mem_cons.mp this with h1 | h1
      · simp [h1]
      · simp [List.mem_cons, h1]
    · simp only [if_neg hq]
      have := ih p
      rcases List.mem_cons.mp this with h1 | h1
      · simp [h1]
      · simp [List.mem_cons, h1]

theorem bestPair_le (f : CacheEntry → Int) (p : String × CacheEntry)
    (rest : List (String × CacheEntry)) :
    f (bestPair f p rest).2 ≤ f p.2 ∧
      ∀ q ∈ rest, f (bestPair f p rest).2 ≤ f q.2 := by
  induction rest generalizing p with
  | nil => simp [bestPair]
  | cons q r ih =>
    simp only [bestPair]
    by_cases hq : f q.2 < f p.2
    · simp only [if_pos hq]
      refine ⟨le_trans (ih q).1 (le_of_lt hq), ?_⟩
      intro q' hq'
      rcases List.mem_cons.mp hq' with h1 | h1
      · rw [h1]; exact (ih q).1
      · exact (ih q).2 q' h1
    · simp only [if_neg hq]
      refine ⟨(ih p).1, ?_⟩
      intro q' hq'
      rcases List.mem_cons.mp hq' with h1 | h1
      · rw [h1]
        exact le_trans (ih p).1 (le_of_not_lt hq)
      · exact (ih p).2 q' h1

/-! ### Characterisation of `Cache.evict` -/

theorem evict_empty (c : Cache) (h : c.entries = []) : c.evict = c := by
  unfold Cache.evict
  rw [h]

theorem evict_fields (c : Cache) :
    (c.evict).max_size = c.max_size ∧ (c.evict).default_ttl = c.default_ttl ∧
    (c.evict).policy = c.policy ∧ (c.evict).stats.hits = c.stats.hits ∧
    (c.evict).stats.misses = c.stats.misses ∧
    (c.evict).stats.sets = c.stats.sets ∧
    (c.evict).stats.expirations = c.stats.expirations := by
  unfold Cache.evict
  cases h : c.entries <;> simp

theorem evict_victim (c : Cache) (p : String × CacheEntry)
    (rest : List (String × CacheEntry)) (h : c.entries = p :: rest) :
    ∃ victim ∈ c.entries,
      (∀ q ∈ c.entries, policyKeyFn c.policy victim.2 ≤ policyKeyFn c.policy q.2) ∧
      (c.evict).entries = dictDel c.entries victim.1 ∧
      (c.evict).stats.evictions = c.stats.evictions + 1 := by
  refine ⟨bestPair (policyKeyFn c.policy) p rest, ?_, ?_, ?_, ?_⟩
  · rw [h]; exact bestPair_mem _ p rest
  · intro q hq
    rw [h] at hq
    rcases List.mem_cons.mp hq with h1 | h1
    · rw [h1]; exact (bestPair_le _ p rest).1
    · exact (bestPair_le _ p rest).2 q h1
  · unfold Cache.evict
    rw [h]
  · unfold Cache.evict
    rw [h]

theorem evict_length (c : Cache) (h : c.entries ≠ []) :
    (c.evict).entries.length + 1 = c.entries.length := by
  cases he : c.entries with
  | nil => exact absurd he h
  | cons p rest =>
    obtain ⟨victim, hv, _, heq, _⟩ := evict_victim c p rest he
    rw [heq, ← he]
    exact length_dictDel_of_mem _ _ (dictMem_of_mem _ _ hv)

theorem evict_evictions (c : Cache) (h : c.entries ≠ []) :
    (c.evict).stats.evictions = c.stats.evictions + 1 := by
  cases he : c.entries with
  | nil => exact absurd he h
  | cons p rest =>
    obtain ⟨_, _, _, _, hs⟩ := evict_victim c p rest he
    exact hs

theorem dictGet_evict_of_not_mem (c : Cache) (k : String)
    (h : dictGet c.entries k = Option.none) :
    dictGet (c.evict).entries k = Option.none := by
  cases he : c.entries with
  | nil => rw [evict_empty c he]; exact h
  | cons p rest =>
    obtain ⟨victim, _, _, heq, _⟩ := evict_victim c p rest he
    rw [heq]
    exact dictGet_dictDel_of_not_mem _ _ _ h

/-! ### Characterisation of `Cache.set` -/

theorem set_of_mem (c : Cache) (now : Int) (key : String) (v : PyVal)
    (ttl : Option Int) (e : CacheEntry) (he : dictGet c.entries key = some e) :
    c.set now key v ttl =
      { c with
        entries := dictSet c.entries key
          (CacheEntry.access
            { e with value := v, expires := computeExpires c.default_ttl now ttl }
            now)
        stats := { c.stats with sets := c.stats.sets + 1 } } := by
  have hmem : dictMem c.entries key = true := by simp [dictMem, he]
  simp [Cache.set, hmem, he]

theorem set_of_not_mem_room (c : Cache) (now : Int) (key : String) (v : PyVal)
    (ttl : Option Int) (hm : dictMem c.entries key = false)
    (hlen : ¬ ((c.entries.length : Int) ≥ c.max_size)) :
    c.set now key v ttl =
      { c with
        entries := c.entries ++
          [(key, { key := key, value := v, created := now, last_accessed := now
                   access_count := 0
                   expires := computeExpires c.default_ttl now ttl })]
        stats := { c.stats with sets := c.stats.sets + 1 } } := by
  have hg : dictGet c.entries key = Option.none := by
    simpa [dictMem, Option.isSome_iff_exists] using hm
  simp [Cache.set, hlen, hg]

theorem set_of_not_mem_full (c : Cache) (now : Int) (key : String) (v : PyVal)
    (ttl : Option Int) (hm : dictMem c.entries key = false)
    (hlen : (c.entries.length : Int) ≥ c.max_size) :
    c.set now key v ttl =
      { c.evict with
        entries := (c.evict).entries ++
          [(key, { key := key, value := v, created := now, last_accessed := now
                   access_count := 0
                   expires := computeExpires c.default_ttl now ttl })]
        stats := { (c.evict).stats with sets := (c.evict).stats.sets + 1 } } := by
  have hg : dictGet c.entries key = Option.none := by
    simpa [dictMem, Option.isSome_iff_exists] using hm
  have hg2 : dictGet (c.evict).entries key = Option.none :=
    dictGet_evict_of_not_mem c key hg
  simp [Cache.set, hlen, hm, hg2]

/-! ### Stats, configuration and size behaviour of `Cache.set` -/

theorem set_stats (c : Cache) (now : Int) (key : String) (v : PyVal)
    (ttl : Option Int) :
    (c.set now key v ttl).stats.hits = c.stats.hits ∧
    (c.set now key v ttl).stats.misses = c.stats.misses ∧
    (c.set now key v ttl).stats.expirations = c.stats.expirations ∧
    (c.set now key v ttl).stats.sets = c.stats.sets + 1 := by
  by_cases hm : dictMem c.entries key = true
  · obtain ⟨e, he⟩ := Option.isSome_iff_exists.mp hm
    rw [set_of_mem c now key v ttl e he]
    exact ⟨rfl, rfl, rfl, rfl⟩
  · rw [Bool.not_eq_true] at hm
    by_cases hlen : (c.entries.length : Int) ≥ c.max_size
    · rw [set_of_not_mem_full c now key v ttl hm hlen]
      have hf := evict_fields c
      exact ⟨hf.2.2.2.1, hf.2.2.2.2.1, hf.2.2.2.2.2.2, by rw [hf.2.2.2.2.2.1]⟩
    · rw [set_of_not_mem_room c now key v ttl hm hlen]
      exact ⟨rfl, rfl, rfl, rfl⟩

theorem set_fields (c : Cache) (now : Int) (key : String) (v : PyVal)
    (ttl : Option Int) :
    (c.set now key v ttl).max_size = c.max_size ∧
    (c.set now key v ttl).default_ttl = c.default_ttl ∧
    (c.set now key v ttl).policy = c.policy := by
  by_cases hm : dictMem c.entries key = true
  · obtain ⟨e, he⟩ := Option.isSome_iff_exists.mp hm
    rw [set_of_mem c now key v ttl e he]
    exact ⟨rfl, rfl, rfl⟩
  · rw [Bool.not_eq_true] at hm
    by_cases hlen : (c.entries.length : Int) ≥ c.max_size
    · rw [set_of_not_mem_full c now key v ttl hm hlen]
      have hf := evict_fields c
      exact ⟨hf.1, hf.2.1, hf.2.2.1⟩
    · rw [set_of_not_mem_room c now key v ttl hm hlen]
      exact ⟨rfl, rfl, rfl⟩

theorem set_length (c : Cache) (now : Int) (key : String) (v : PyVal)
    (ttl : Option Int) :
    (c.set now key v ttl).entries.length =
      if dictMem c.entries key = true then c.entries.length
      else if (c.entries.length : Int) ≥ c.max_size ∧ c.entries ≠ [] then
        c.entries.length
      else c.entries.length + 1 := by
  by_cases hm : dictMem c.entries key = true
  · obtain ⟨e, he⟩ := Option.isSome_iff_exists.mp hm
    rw [set_of_mem c now key v ttl e he, if_pos hm]
    exact length_dictSet _ _ _
  · rw [Bool.not_eq_true] at hm
    rw [if_neg (by simp [hm])]
    by_cases hlen : (c.entries.length : Int) ≥ c.max_size
    · by_cases hne : c.entries = []
      · rw [if_neg (by simp [hne])]
        rw [set_of_not_mem_full c now key v ttl hm hlen]
        rw [evict_empty c hne]
        simp [hne]
      · rw [if_pos ⟨hlen, hne⟩]
        rw [set_of_not_mem_full c now key v ttl hm hlen]
        simp only [List.length_append, List.length_cons, List.length_nil]
        have := evict_length c hne
        omega
    · rw [if_neg (by simp [hlen])]
      rw [set_of_not_mem_room c now key v ttl hm hlen]
      simp

theorem set_evictions_of_mem (c : Cache) (now : Int) (key : String) (v : PyVal)
    (ttl : Option Int) (hm : dictMem c.entries key = true) :
    (c.set now key v ttl).stats.evictions = c.stats.evictions := by
  obtain ⟨e, he⟩ := Option.isSome_iff_exists.mp hm
  rw [set_of_mem c now key v ttl e he]

theorem dictGet_set_self (c : Cache) (now : Int) (key : String) (v : PyVal)
    (ttl : Option Int) :
    ∃ e, dictGet (c.set now key v ttl).entries key = some e ∧
      e.value = v ∧ e.expires = computeExpires c.default_ttl now ttl ∧
      e.last_accessed = now := by
  by_cases hm : dictMem c.entries key = true
  · obtain ⟨e0, he⟩ := Option.isSome_iff_exists.mp hm
    rw [set_of_mem c now key v ttl e0 he]
    exact ⟨_, dictGet_dictSet_self _ _ _ hm, rfl, rfl, rfl⟩
  · rw [Bool.not_eq_true] at hm
    have hg : dictGet c.entries key = Option.none := by
      simpa [dictMem, Option.isSome_iff_exists] using hm
    by_cases hlen : (c.entries.length : Int) ≥ c.max_size
    · rw [set_of_not_mem_full c now key v ttl hm hlen]
      exact ⟨_, dictGet_append_self _ _ _ (dictGet_evict_of_not_mem c key hg),
        rfl, rfl, rfl⟩
    · rw [set_of_not_mem_room c now key v ttl hm hlen]
      exact ⟨_, dictGet_append_self _ _ _ hg, rfl, rfl, rfl⟩

/-! ### Sequence lemmas -/

theorem run_cons (c : Cache) (op : Op) (ops : List Op) :
    c.run (op :: ops) = (c.apply op).run ops := rfl

theorem runSets_cons (c : Cache) (s : SetCall) (l : List SetCall) :
    c.runSets (s :: l) = (c.set s.now s.key s.value s.ttl).runSets l := rfl

theorem get_counter_sum (c : Cache) (now : Int) (key : String) (d : PyVal) :
    (c.get now key d).2.stats.hits + (c.get now key d).2.stats.misses +
      (c.get now key d).2.stats.expirations =
    c.stats.hits + c.stats.misses + c.stats.expirations + 1 := by
  rcases hg : dictGet c.entries key with _ | e
  · simp [Cache.get, hg]
    omega
  · by_cases hexp : e.is_expired now = true
    · simp [Cache.get, hg, hexp]
      omega
    · simp [Cache.get, hg, hexp]
      omega

theorem run_counter_sum (ops : List Op) (c : Cache) :
    (c.run ops).stats.hits + (c.run ops).stats.misses +
      (c.run ops).stats.expirations =
    c.stats.hits + c.stats.misses + c.stats.expirations + numGets ops := by
  induction ops generalizing c with
  | nil => simp [Cache.run, numGets]
  | cons op rest ih =>
    rw [run_cons]
    cases op with
    | set now key v ttl =>
      have hs := set_stats c now key v ttl
      rw [Cache.apply, ih (c.set now key v ttl), hs.1, hs.2.1, hs.2.2.1]
      rfl
    | get now key d =>
      rw [Cache.apply, ih ((c.get now key d).2)]
      have hg := get_counter_sum c now key d
      have : numGets (Op.get now key d :: rest) = numGets rest + 1 := rfl
      omega

theorem set_length_le (c : Cache) (now : Int) (key : String) (v : PyVal)
    (ttl : Option Int) (h1 : 1 ≤ c.max_size)
    (h2 : (c.entries.length : Int) ≤ c.max_size) :
    ((c.set now key v ttl).entries.length : Int) ≤ c.max_size := by
  rw [set_length]
  split_ifs with h h'
  · exact h2
  · exact h2
  · by_cases hA : (c.entries.length : Int) ≥ c.max_size
    · have hB : c.entries = [] := by
        by_contra hB
        exact h' ⟨hA, hB⟩
      simp [hB]
      omega
    · push_cast
      omega

theorem set_length_le_one_of_nonpos (c : Cache) (now : Int) (key : String)
    (v : PyVal) (ttl : Option Int) (h1 : c.max_size ≤ 0)
    (h2 : c.entries.length ≤ 1) :
    (c.set now key v ttl).entries.length ≤ 1 := by
  rw [set_length]
  split_ifs with h h'
  · exact h2
  · exact h2
  · have hA : (c.entries.length : Int) ≥ c.max_size :=
      le_trans h1 (Int.ofNat_nonneg _)
    have hB : c.entries = [] := by
      by_contra hB
      exact h' ⟨hA, hB⟩
    simp [hB]

theorem runSets_length_le (l : List SetCall) (c : Cache)
    (h1 : 1 ≤ c.max_size) (h2 : (c.entries.length : Int) ≤ c.max_size) :
    ((c.runSets l).entries.length : Int) ≤ c.max_size := by
  induction l generalizing c with
  | nil => exact h2
  | cons s rest ih =>
    rw [runSets_cons]
    have hf := set_fields c s.now s.key s.value s.ttl
    have step := set_length_le c s.now s.key s.value s.ttl h1 h2
    have := ih (c.set s.now s.key s.value s.ttl) (hf.1 ▸ h1) (hf.1 ▸ step)
    rwa [hf.1] at this

theorem runSets_length_le_one_of_nonpos (l : List SetCall) (c : Cache)
    (h1 : c.max_size ≤ 0) (h2 : c.entries.length ≤ 1) :
    (c.runSets l).entries.length ≤ 1 := by
  induction l generalizing c with
  | nil => exact h2
  | cons s rest ih =>
    rw [runSets_cons]
    have hf := set_fields c s.now s.key s.value s.ttl
    have step := set_length_le_one_of_nonpos c s.now s.key s.value s.ttl h1 h2
    exact ih (c.set s.now s.key s.value s.ttl) (hf.1 ▸ h1) step

/-! ### Claim theorems -/

/-- C1 counterexample: with `max_size = 0`, setting `"A"` and then the
distinct key `"B"` invokes the eviction policy (`stats.evictions = 1`)
and `"A"` is no longer present, so `max_size = 0` is not unbounded. -/
theorem C1_counterexample :
    (zeroCapA.set 2 "B" (PyVal.int 2) Option.none).stats.evictions = 1 ∧
    dictMem (zeroCapA.set 2 "B" (PyVal.int 2) Option.none).entries "A" =
      false := by
  decide

/-- C1 (amended): `max_size = 0` does not mean unbounded. Any `set` of a
new key while a `max_size = 0` cache is nonempty invokes eviction, and
after any sequence of `set` calls on a freshly constructed `max_size = 0`
cache at most one entry is stored. -/
theorem C1_maxsize_zero_not_unbounded :
    (∀ (c : Cache) (now : Int) (key : String) (v : PyVal) (ttl : Option Int),
      c.max_size = 0 → c.entries ≠ [] → dictMem c.entries key = false →
      (c.set now key v ttl).stats.evictions = c.stats.evictions + 1) ∧
    ∀ (name : String) (p : EvictionPolicy) (t : Option Int) (l : List SetCall),
      ((Cache.init name 0 p t).runSets l).entries.length ≤ 1 := by
  constructor
  · intro c now key v ttl hms hne hm
    have hlen : (c.entries.length : Int) ≥ c.max_size := by
      rw [hms]
      exact Int.ofNat_nonneg _
    rw [set_of_not_mem_full c now key v ttl hm hlen]
    simpa using evict_evictions c hne
  · intro name p t l
    exact runSets_length_le_one_of_nonpos l _ le_rfl (by simp [Cache.init])

/-- C1 witness: the amended statement instantiated on a concrete
`max_size = 0` cache holding `"A"`, set with the new key `"B"`. -/
theorem C1_witness :
    (zeroCapA.set 2 "B" (PyVal.int 2) Option.none).stats.evictions =
      zeroCapA.stats.evictions + 1 :=
  C1_maxsize_zero_not_unbounded.1 zeroCapA 2 "B" (PyVal.int 2) Option.none
    (by decide) (by decide) (by decide)

/-- C2 counterexample: on a fresh cache (`default_ttl = None`),
`set("k", 7, ttl=0)` followed immediately by `get("k", default)` returns
the stored value `7`, not the default, and `stats.expirations` stays 0. -/
theorem C2_counterexample :
    (((Cache.init "default" 100 EvictionPolicy.LRU Option.none).set 0 "k"
        (PyVal.int 7) (some 0)).get 0 "k" (PyVal.str "d")).1 = PyVal.int 7 ∧
    (((Cache.init "default" 100 EvictionPolicy.LRU Option.none).set 0 "k"
        (PyVal.int 7) (some 0)).get 0 "k"
        (PyVal.str "d")).2.stats.expirations = 0 := by
  decide

/-- C2 (amended): `ttl=0` is falsy in `ttl or default_ttl`, so
`set(k, v, ttl=0)` falls back to `default_ttl`; when `default_ttl` is
`None` the entry gets no expiry, and a subsequent `get(k, d)` at any
time returns the stored value as a hit, leaving `stats.expirations`
unchanged. -/
theorem C2_ttl_zero_falls_back (c : Cache) (now now2 : Int) (k : String)
    (v d : PyVal) (h : c.default_ttl = Option.none) :
    ((c.set now k v (some 0)).get now2 k d).1 = v ∧
    ((c.set now k v (some 0)).get now2 k d).2.stats.hits =
      c.stats.hits + 1 ∧
    ((c.set now k v (some 0)).get now2 k d).2.stats.expirations =
      c.stats.expirations := by
  obtain ⟨e, hge, hv, hexp, _⟩ := dictGet_set_self c now k v (some 0)
  have hnone : e.expires = Option.none := by
    rw [hexp, computeExpires, h]
    simp [pyOr, truthy]
  have hlive : e.is_expired now2 = false := by
    rw [CacheEntry.is_expired, hnone]
  have hs := set_stats c now k v (some 0)
  refine ⟨?_, ?_, ?_⟩
  · simp [Cache.get, hge, hlive, hv]
  · simp [Cache.get, hge, hlive, hs.1]
  · simp [Cache.get, hge, hlive, hs.2.2.1]

/-- C2 witness: the amended statement on a fresh default cache. -/
theorem C2_witness :
    (((Cache.init "default" 100 EvictionPolicy.LRU Option.none).set 0 "k"
        (PyVal.int 7) (some 0)).get 0 "k" (PyVal.str "d")).1 = PyVal.int 7 ∧
    (((Cache.init "default" 100 EvictionPolicy.LRU Option.none).set 0 "k"
        (PyVal.int 7) (some 0)).get 0 "k" (PyVal.str "d")).2.stats.hits =
      (Cache.init "default" 100 EvictionPolicy.LRU Option.none).stats.hits
        + 1 :=
  have h := C2_ttl_zero_falls_back
    (Cache.init "default" 100 EvictionPolicy.LRU Option.none) 0 0 "k"
    (PyVal.int 7) (PyVal.str "d") rfl
  ⟨h.1, h.2.1⟩

/-- C3 counterexample: one `set` with `ttl = 1` and one `get` after the
entry expired make one `get` call, yet `hits + misses = 0` — the
expired `get` increments neither counter. -/
theorem C3_counterexample :
    numGets expiryOps = 1 ∧
    ((Cache.init "default" 100 EvictionPolicy.LRU Option.none).run
        expiryOps).stats.hits +
      ((Cache.init "default" 100 EvictionPolicy.LRU Option.none).run
        expiryOps).stats.misses = 0 := by
  decide

/-- C3 (amended): every `get` increments exactly one of `hits`,
`misses`, `expirations` (an expired `get` counts as an expiration, not a
hit or a miss), so for every sequence of operations on a fresh cache,
`hits + misses + expirations` equals the total number of `get` calls. -/
theorem C3_counter_sum (name : String) (ms : Int) (p : EvictionPolicy)
    (t : Option Int) (ops : List Op) :
    ((Cache.init name ms p t).run ops).stats.hits +
      ((Cache.init name ms p t).run ops).stats.misses +
      ((Cache.init name ms p t).run ops).stats.expirations =
    numGets ops := by
  simpa [Cache.init] using run_counter_sum ops (Cache.init name ms p t)

/-- C4: for every cache whose size respects a positive `max_size`
(in particular any freshly constructed one), every sequence of `set`
calls keeps `size() ≤ max_size`. -/
theorem C4_capacity_invariant (c : Cache) (l : List SetCall)
    (h1 : 1 ≤ c.max_size) (h2 : (c.entries.length : Int) ≤ c.max_size) :
    (((c.runSets l).get_stats.size : Int)) ≤ c.max_size := by
  simpa [Cache.get_stats] using runSets_length_le l c h1 h2

/-- C4 witness: three distinct-key `set` calls on a fresh capacity-2
cache keep `size() ≤ 2`. -/
theorem C4_witness :
    ((((Cache.init "c" 2 EvictionPolicy.LRU Option.none).runSets
        demoSets).get_stats.size : Int)) ≤
      (Cache.init "c" 2 EvictionPolicy.LRU Option.none).max_size :=
  C4_capacity_invariant (Cache.init "c" 2 EvictionPolicy.LRU Option.none)
    demoSets (by decide) (by decide)

/-- C5 counterexample: constructing with `max_size = -1` raises no
configuration error — the constructor returns a cache that stores the
negative capacity unchanged and accepts subsequent operations. -/
theorem C5_counterexample :
    (Cache.init "c" (-1) EvictionPolicy.LRU Option.none).max_size = -1 ∧
    ((Cache.init "c" (-1) EvictionPolicy.LRU Option.none).set 0 "k"
        (PyVal.int 1) Option.none).entries.length = 1 := by
  decide

/-- C5 (amended): the constructor performs no validation: a negative
`max_size` is accepted and stored unchanged rather than rejected, and the
misconfiguration surfaces at runtime, where every `set` sequence leaves
at most one stored entry. -/
theorem C5_no_validation (name : String) (ms : Int) (p : EvictionPolicy)
    (t : Option Int) (hneg : ms < 0) :
    (Cache.init name ms p t).max_size = ms ∧
    ∀ l : List SetCall,
      ((Cache.init name ms p t).runSets l).entries.length ≤ 1 := by
  refine ⟨rfl, fun l => runSets_length_le_one_of_nonpos l _ ?_ ?_⟩
  · exact le_of_lt hneg
  · simp [Cache.init]

/-- C5 witness: the amended statement at `max_size = -1` with two sets. -/
theorem C5_witness :
    (Cache.init "c" (-1) EvictionPolicy.LRU Option.none).max_size = -1 ∧
    ((Cache.init "c" (-1) EvictionPolicy.LRU Option.none).runSets
        demoSets).entries.length ≤ 1 :=
  have h := C5_no_validation "c" (-1) EvictionPolicy.LRU Option.none
    (by decide)
  ⟨h.1, h.2 demoSets⟩

/-- C6: in the spec's scenario (`max_size = 2`, LRU, insert `A`, insert
`B`, read `A`, insert `C`) the key `B` is evicted and `A` survives; and
in general, LRU eviction removes an entry whose `last_accessed` is
minimal among all stored entries, incrementing `stats.evictions`. -/
theorem C6_lru_evicts_least_recently_accessed :
    (dictMem lruScenario.entries "B" = false ∧
     dictMem lruScenario.entries "A" = true ∧
     dictMem lruScenario.entries "C" = true ∧
     lruScenario.stats.evictions = 1) ∧
    ∀ c : Cache, c.policy = EvictionPolicy.LRU → c.entries ≠ [] →
      ∃ victim ∈ c.entries,
        (∀ q ∈ c.entries, victim.2.last_accessed ≤ q.2.last_accessed) ∧
        (c.evict).entries = dictDel c.entries victim.1 ∧
        (c.evict).stats.evictions = c.stats.evictions + 1 := by
  constructor
  · decide
  · intro c hp hne
    obtain ⟨p, rest, he⟩ := List.exists_cons_of_ne_nil hne
    obtain ⟨victim, hv, hmin, heq, hs⟩ := evict_victim c p rest he
    refine ⟨victim, hv, ?_, heq, hs⟩
    intro q hq
    simpa [hp, policyKeyFn] using hmin q hq

/-- C6 witness: the general LRU statement applied to the concrete
capacity-2 cache holding `A` and `B`. -/
theorem C6_witness :
    ∃ victim ∈ fullAB.entries,
      (∀ q ∈ fullAB.entries, victim.2.last_accessed ≤ q.2.last_accessed) ∧
      (fullAB.evict).entries = dictDel fullAB.entries victim.1 ∧
      (fullAB.evict).stats.evictions = fullAB.stats.evictions + 1 :=
  C6_lru_evicts_least_recently_accessed.2 fullAB (by decide) (by decide)

/-- C7: `get_stats` reports `hit_rate = hits / (hits + misses) * 100`
whenever at least one request happened — in particular `75` after 3 hits
and 1 miss — and reports `0` when no requests occurred, never dividing
by zero. -/
theorem C7_hit_rate (c : Cache) :
    (0 < c.stats.hits + c.stats.misses →
      c.get_stats.hit_rate =
        (c.stats.hits : Rat) /
          ((c.stats.hits + c.stats.misses : Nat) : Rat) * 100) ∧
    (c.stats.hits = 3 → c.stats.misses = 1 → c.get_stats.hit_rate = 75) ∧
    (c.stats.hits + c.stats.misses = 0 → c.get_stats.hit_rate = 0) := by
  refine ⟨?_, ?_, ?_⟩
  · intro h
    simp [Cache.get_stats, h]
  · intro h3 h1
    simp [Cache.get_stats, h3, h1]
    norm_num
  · intro h0
    simp [Cache.get_stats, h0]

/-- C7 witness: `hit_rate = 75` on a cache with 3 hits and 1 miss, and
`hit_rate = 0` on a fresh cache with no requests. -/
theorem C7_witness :
    hitMissCache.get_stats.hit_rate = 75 ∧
    (Cache.init "c" 100 EvictionPolicy.LRU Option.none).get_stats.hit_rate
      = 0 :=
  ⟨(C7_hit_rate hitMissCache).2.1 rfl rfl,
   (C7_hit_rate (Cache.init "c" 100 EvictionPolicy.LRU Option.none)).2.2 rfl⟩

/-- C8: a `set` on an already-present key while the cache is at
`max_size` capacity triggers no eviction and does not change the size:
the entry is updated in place with the new value and expiry. -/
theorem C8_update_in_place_no_eviction (c : Cache) (now : Int)
    (key : String) (v : PyVal) (ttl : Option Int) (e : CacheEntry)
    (he : dictGet c.entries key = some e)
    (_hcap : (c.entries.length : Int) = c.max_size) :
    (c.set now key v ttl).stats.evictions = c.stats.evictions ∧
    (c.set now key v ttl).entries.length = c.entries.length ∧
    dictGet (c.set now key v ttl).entries key =
      some (CacheEntry.access
        { e with value := v, expires := computeExpires c.default_ttl now ttl }
        now) := by
  have hm : dictMem c.entries key = true := by simp [dictMem, he]
  rw [set_of_mem c now key v ttl e he]
  exact ⟨rfl, length_dictSet _ _ _, dictGet_dictSet_self _ _ _ hm⟩

/-- C8 witness: re-setting `"A"` on the full capacity-2 cache. -/
theorem C8_witness :
    (fullAB.set 3 "A" (PyVal.int 9) Option.none).stats.evictions =
      fullAB.stats.evictions ∧
    (fullAB.set 3 "A" (PyVal.int 9) Option.none).entries.length =
      fullAB.entries.length ∧
    dictGet (fullAB.set 3 "A" (PyVal.int 9) Option.none).entries "A" =
      some (CacheEntry.access
        { (⟨"A", PyVal.int 1, 1, 1, 0, Option.none⟩ : CacheEntry) with
          value := PyVal.int 9
          expires := computeExpires fullAB.default_ttl 3 Option.none } 3) :=
  C8_update_in_place_no_eviction fullAB 3 "A" (PyVal.int 9) Option.none
    ⟨"A", PyVal.int 1, 1, 1, 0, Option.none⟩ (by decide) (by decide)

/-- C9: a `get` on an expired entry removes it, increments
`stats.expirations` by exactly 1, returns the default, and leaves both
`stats.hits` and `stats.misses` unchanged. -/
theorem C9_expired_get (c : Cache) (now : Int) (key : String) (d : PyVal)
    (e : CacheEntry) (he : dictGet c.entries key = some e)
    (hexp : e.is_expired now = true)
    (hnd : (c.entries.map Prod.fst).Nodup) :
    (c.get now key d).1 = d ∧
    (c.get now key d).2.stats.expirations = c.stats.expirations + 1 ∧
    (c.get now key d).2.stats.hits = c.stats.hits ∧
    (c.get now key d).2.stats.misses = c.stats.misses ∧
    dictGet (c.get now key d).2.entries key = Option.none := by
  refine ⟨?_, ?_, ?_, ?_, ?_⟩
  · simp [Cache.get, he, hexp]
  · simp [Cache.get, he, hexp]
  · simp [Cache.get, he, hexp]
  · simp [Cache.get, he, hexp]
  · simp only [Cache.get, he, hexp, if_pos]
    exact dictGet_dictDel_self c.entries key hnd

/-- C9 witness: the expired entry `"k"` (expiry 1) read at time 2. -/
theorem C9_witness :
    (expiredCache.get 2 "k" (PyVal.str "d")).1 = PyVal.str "d" ∧
    (expiredCache.get 2 "k" (PyVal.str "d")).2.stats.expirations =
      expiredCache.stats.expirations + 1 ∧
    (expiredCache.get 2 "k" (PyVal.str "d")).2.stats.hits =
      expiredCache.stats.hits ∧
    (expiredCache.get 2 "k" (PyVal.str "d")).2.stats.misses =
      expiredCache.stats.misses ∧
    dictGet (expiredCache.get 2 "k" (PyVal.str "d")).2.entries "k" =
      Option.none :=
  C9_expired_get expiredCache 2 "k" (PyVal.str "d")
    ⟨"k", PyVal.int 7, 0, 0, 0, some 1⟩ (by decide) (by decide) (by decide)

/-- C10: for a present, unexpired entry whose stored value is `None`,
`key in cache` is false and `cache[key]` raises `KeyError`, while
`get(key, d)` returns `None` — unlike an absent key, for which
`get(key, d)` returns `d`. -/
theorem C10_none_value_semantics (c : Cache) (now : Int) (key : String)
    (e : CacheEntry) (he : dictGet c.entries key = some e)
    (hv : e.value = PyVal.none) (hexp : e.is_expired now = false) :
    (c.contains now key).1 = false ∧
    (c.getitem now key).1 = Except.error key ∧
    (∀ d : PyVal, (c.get now key d).1 = PyVal.none) ∧
    ∀ (c2 : Cache) (d : PyVal), dictGet c2.entries key = Option.none →
      (c2.get now key d).1 = d := by
  refine ⟨?_, ?_, ?_, ?_⟩
  · simp [Cache.contains, Cache.get, he, hexp, hv]
  · simp [Cache.getitem, Cache.get, he, hexp, hv]
  · intro d
    simp [Cache.get, he, hexp, hv]
  · intro c2 d hg
    simp [Cache.get, hg]

/-- C10 witness: the concrete cache storing `None` under `"k"`, against
a fresh cache where `"k"` is absent. -/
theorem C10_witness :
    (noneValueCache.contains 1 "k").1 = false ∧
    (noneValueCache.getitem 1 "k").1 = Except.error "k" ∧
    (noneValueCache.get 1 "k" (PyVal.str "d")).1 = PyVal.none ∧
    ((Cache.init "c" 100 EvictionPolicy.LRU Option.none).get 1 "k"
      (PyVal.str "d")).1 = PyVal.str "d" :=
  have h := C10_none_value_semantics noneValueCache 1 "k"
    ⟨"k", PyVal.none, 0, 0, 0, Option.none⟩ (by decide) (by decide)
    (by decide)
  ⟨h.1, h.2.1, h.2.2.1 (PyVal.str "d"),
   h.2.2.2 (Cache.init "c" 100 EvictionPolicy.LRU Option.none)
     (PyVal.str "d") (by decide)⟩
